import Mathlib

/-!
Verification of the IrateGoose WAV-library / config-synchronization core.

This file is a shallow embedding, in Lean 4, of the parts of the program
that the specification's claims are about:

* `FileManager::detect_sample_rate_and_checksum` (src/file_manager.rs),
* the sorting step of `FileManager::rescan_configured_directory`,
* `WavFileIndex` (src/wav_file_index.rs),
* `ConfigManager::write_config`, `config_exists`,
  `extract_filename_from_config` (src/config_manager.rs),
* `AppGUI::safe_rescan`, `on_rescan_click`, `truncate_description`,
  `apply_auto_selection` (src/app_gui.rs),
* the settings persistence of `AppSettings` (src/settings.rs).

File contents are modelled as `List (Fin 256)` (byte vectors); the external
xxh3 hash from the `xxhash_rust` crate is an abstract parameter
`xxh3 : List (Fin 256) → Nat`.  Fallible operations return `Except` or
`Option`, and the file system is explicit state passed in and out.
-/

/-- A byte of a file, as stored in Rust's `Vec<u8>`. -/
abbrev Byte := Fin 256

/-- Detected sample rate of a WAV file (src/file_manager.rs `WaveSampleRate`). -/
inductive WaveSampleRate where
  | F48000
  | F44100
  | F96000
  | Unknown
  | Damaged
deriving DecidableEq, Repr

/-- The bytes of `b"RIFF"`. -/
def riffMagic : List Byte := [82, 73, 70, 70]

/-- The bytes of `b"WAVE"`. -/
def waveMagic : List Byte := [87, 65, 86, 69]

/-- The `match sample_rate` arm of `detect_sample_rate_and_checksum`:
maps 44100, 48000, 96000 to their named classes, anything else to `Unknown`. -/
def mapSampleRate (n : Nat) : WaveSampleRate :=
  if n = 44100 then .F44100
  else if n = 48000 then .F48000
  else if n = 96000 then .F96000
  else .Unknown

/-- `u32::from_le_bytes([data[24], data[25], data[26], data[27]])`. -/
def le32at24 (data : List Byte) : Nat :=
  (data.getD 24 0).val + 256 * (data.getD 25 0).val
    + 65536 * (data.getD 26 0).val + 16777216 * (data.getD 27 0).val

/-- `FileManager::detect_sample_rate_and_checksum` (src/file_manager.rs).
`file = none` models `std::fs::read` failing; `xxh3` is the external
`xxhash_rust::xxh3::xxh3_64` hash, abstracted as a parameter. -/
def detect_sample_rate_and_checksum (xxh3 : List Byte → Nat)
    (file : Option (List Byte)) : WaveSampleRate × Nat :=
  match file with
  | none => (.Damaged, 0)
  | some data =>
    if data.length < 28 then (.Damaged, 0)
    else if data.take 4 ≠ riffMagic ∨ (data.drop 8).take 4 ≠ waveMagic then
      (.Damaged, 0)
    else (mapSampleRate (le32at24 data), xxh3 data)

/-- The condition under which `detect_sample_rate_and_checksum` reports a
damaged file: unreadable, shorter than 28 bytes, or failing the
RIFF/WAVE magic check. -/
def wavDamaged (file : Option (List Byte)) : Bool :=
  match file with
  | none => true
  | some data =>
    if data.length < 28 then true
    else if data.take 4 ≠ riffMagic ∨ (data.drop 8).take 4 ≠ waveMagic then true
    else false

/-- The checksum computation inlined in `ConfigManager::config_exists`
(src/config_manager.rs lines 169-179): read the referenced file, return the
xxh3 hash when the basic WAV header check passes and 0 otherwise. -/
def config_checksum (xxh3 : List Byte → Nat) (file : Option (List Byte)) : Nat :=
  match file with
  | none => 0
  | some data =>
    if 28 ≤ data.length ∧ data.take 4 = riffMagic ∧ (data.drop 8).take 4 = waveMagic
    then xxh3 data
    else 0

/-- A concrete 28-byte valid WAV header with sample rate 44100
(`0xAC44` little-endian at offset 24). -/
def sampleWav : List Byte :=
  [82, 73, 70, 70, 0, 0, 0, 0, 87, 65, 86, 69,
   0, 0, 0, 0, 0, 0, 0, 0, 0, 0, 0, 0, 68, 172, 0, 0]

/-- The `Configuration` enum of src/descriptions.rs. -/
inductive Configuration where
  | Headphones
  | Speakers
deriving DecidableEq, Repr

/-- The `HRTFMetadata` record of src/descriptions.rs.  The Rust code shares
one record between many WAV entries through `Rc`; values model that sharing. -/
structure HRTFMetadata where
  hrtf : String
  configuration : Option Configuration
  description : String
  source : String
  credits : String
  points : Option Nat
deriving DecidableEq, Repr

/-- One scanned WAV file record (src/file_manager.rs `WaveFileData`, named
`WavFileData` by its consumers in src/app_gui.rs and src/wav_file_index.rs). -/
structure WavFileData where
  path : String
  relative_path : String
  sample_rate : WaveSampleRate
  metadata : Option HRTFMetadata
  checksum : Nat
deriving DecidableEq, Repr

/-- Rust `str::contains(pat)` for a non-pattern plain substring, on
character lists. -/
def containsSub (pat : List Char) : List Char → Bool
  | [] => pat.isEmpty
  | c :: rest => pat.isPrefixOf (c :: rest) || containsSub pat rest

/-- The `a.path.to_string_lossy().contains("HeSuVi/")` test of the sort
comparator in `rescan_configured_directory` (src/file_manager.rs lines 88-90). -/
def isHesuvi (w : WavFileData) : Bool :=
  containsSub "HeSuVi/".toList w.path.toList

/-- Lexicographic comparison of character lists, modelling the `Ord`
comparison of the two `PathBuf` values in the sort comparator. -/
def pathCmp : List Char → List Char → Ordering
  | [], [] => .eq
  | [], _ :: _ => .lt
  | _ :: _, [] => .gt
  | a :: as, b :: bs =>
    if a < b then .lt else if b < a then .gt else pathCmp as bs

/-- The sort comparator of `rescan_configured_directory`
(src/file_manager.rs lines 88-97): HeSuVi entries first, then by path. -/
def wavOrder (a b : WavFileData) : Ordering :=
  match isHesuvi a, isHesuvi b with
  | true, false => .lt
  | false, true => .gt
  | true, true => pathCmp a.path.toList b.path.toList
  | false, false => pathCmp a.path.toList b.path.toList

/-- `wavOrder a b ≠ Ordering.gt`, as a Bool: the "a may come before b"
relation induced by the comparator. -/
def wavLe (a b : WavFileData) : Bool :=
  match wavOrder a b with
  | .gt => false
  | _ => true

/-- The `self.wave_data.sort_by(...)` call of `rescan_configured_directory`:
a stable comparison sort by `wavOrder` (Rust's stable `sort_by` and any other
stable sort agree for this total preorder; insertion sort is used here). -/
def sortRecords (l : List WavFileData) : List WavFileData :=
  List.insertionSort (fun a b => wavLe a b = true) l

/-- `WavFileIndex` (src/wav_file_index.rs): an ordered list of records plus a
map from non-zero checksum to position.  The Rust `HashMap<u64, usize>` is
modelled as a function `Nat → Option Nat`. -/
structure WavFileIndex where
  items : List WavFileData
  checksum_index : Nat → Option Nat

/-- `WavFileIndex::new`. -/
def WavFileIndex.new : WavFileIndex :=
  { items := [], checksum_index := fun _ => none }

/-- One step of the index-building loop of `WavFileIndex::from_vec`:
insert `checksum ↦ position` for a non-zero checksum, overwriting any
previous mapping for the same checksum. -/
def stepIdx (m : Nat → Option Nat) (p : Nat × WavFileData) : Nat → Option Nat :=
  if p.2.checksum ≠ 0 then
    fun c => if c = p.2.checksum then some p.1 else m c
  else m

/-- `WavFileIndex::from_vec` (src/wav_file_index.rs lines 29-40). -/
def WavFileIndex.from_vec (items : List WavFileData) : WavFileIndex :=
  { items := items
    checksum_index := items.enum.foldl stepIdx (fun _ => none) }

/-- `WavFileIndex::clear`. -/
def WavFileIndex.clear (_idx : WavFileIndex) : WavFileIndex :=
  { items := [], checksum_index := fun _ => none }

/-- `WavFileIndex::add` (src/wav_file_index.rs lines 54-60). -/
def WavFileIndex.add (idx : WavFileIndex) (item : WavFileData) : WavFileIndex :=
  { items := idx.items ++ [item]
    checksum_index :=
      if item.checksum ≠ 0 then
        fun c => if c = item.checksum then some idx.items.length else idx.checksum_index c
      else idx.checksum_index }

/-- `WavFileIndex::len`. -/
def WavFileIndex.len (idx : WavFileIndex) : Nat :=
  idx.items.length

/-- `WavFileIndex::get_by_index`. -/
def WavFileIndex.get_by_index (idx : WavFileIndex) (i : Nat) : Option WavFileData :=
  idx.items[i]?

/-- `WavFileIndex::get_by_checksum` (src/wav_file_index.rs lines 75-82):
`None` for checksum 0, else map lookup then list lookup. -/
def WavFileIndex.get_by_checksum (idx : WavFileIndex) (c : Nat) : Option WavFileData :=
  if c = 0 then none
  else (idx.checksum_index c).bind (fun i => idx.items[i]?)

/-- Modelled from the spec: `index_of_checksum` is called by src/app_gui.rs
but is not present in the src/wav_file_index.rs of this snapshot; spec §4.2
specifies it as the position-returning reverse of `getByChecksum`. -/
def WavFileIndex.index_of_checksum (idx : WavFileIndex) (c : Nat) : Option Nat :=
  if c = 0 then none
  else
    match idx.checksum_index c with
    | some i => if i < idx.items.length then some i else none
    | none => none

/-- `WavFileIndex::filtered_clone` (src/wav_file_index.rs lines 93-105):
a brand-new index over the records satisfying the predicate, in order. -/
def WavFileIndex.filtered_clone (idx : WavFileIndex) (p : WavFileData → Bool) :
    WavFileIndex :=
  WavFileIndex.from_vec (idx.items.filter p)

/-- Unicode `White_Space` code points: the character set of Rust's
`char::is_whitespace` and of the default (Unicode-aware) `\s` class of the
`regex` crate. -/
def unicodeWs (c : Char) : Bool :=
  c.toNat = 0x09 || c.toNat = 0x0A || c.toNat = 0x0B || c.toNat = 0x0C ||
  c.toNat = 0x0D || c.toNat = 0x20 || c.toNat = 0x85 || c.toNat = 0xA0 ||
  c.toNat = 0x1680 || (0x2000 ≤ c.toNat && c.toNat ≤ 0x200A) ||
  c.toNat = 0x2028 || c.toNat = 0x2029 || c.toNat = 0x202F ||
  c.toNat = 0x205F || c.toNat = 0x3000

/-- Rust `str::trim_end`: remove trailing Unicode whitespace. -/
def trimEnd (s : List Char) : List Char :=
  (s.reverse.dropWhile unicodeWs).reverse

/-- Rust `str::trim`: remove leading and trailing Unicode whitespace. -/
def rustTrim (s : String) : String :=
  String.mk (trimEnd (s.toList.dropWhile unicodeWs))

/-- Strips a literal pattern from the front of a character list, returning
the remainder on success. -/
def stripPre : List Char → List Char → Option (List Char)
  | [], s => some s
  | _ :: _, [] => none
  | c :: cs, d :: ds => if c = d then stripPre cs ds else none

/-- One anchored attempt of the regex `filename\s*=\s*"([^"]+)` of
`ConfigManager::extract_filename_from_config`: the literal `filename`, then
optional whitespace, `=`, optional whitespace, `"`, then a non-empty greedy
capture of non-quote characters. -/
def matchFilenameAt (s : List Char) : Option (List Char) :=
  match stripPre "filename".toList s with
  | none => none
  | some s1 =>
    match s1.dropWhile unicodeWs with
    | '=' :: s3 =>
      match s3.dropWhile unicodeWs with
      | '"' :: s5 =>
        let cap := s5.takeWhile (fun c => c != '"')
        if cap.isEmpty then none else some cap
      | _ => none
    | _ => none

/-- Leftmost-match search for the `filename\s*=\s*"([^"]+)` pattern: the
first position at which the anchored match succeeds, as the regex crate's
`captures` would find it. -/
def findFilenameMatch : List Char → Option (List Char)
  | [] => none
  | c :: rest =>
    match matchFilenameAt (c :: rest) with
    | some cap => some cap
    | none => findFilenameMatch rest

/-- `ConfigManager::extract_filename_from_config`
(src/config_manager.rs lines 203-218). -/
def extract_filename_from_config (content : String) : Except String String :=
  match findFilenameMatch content.toList with
  | some cap => .ok (String.mk cap)
  | none => .error "No filename found in config"

/-- Fuel-driven worker for `replaceAll`; the fuel only needs to bound the
input length, so the wrapper below passes the length itself. -/
def replaceAllAux (pat repl : List Char) : Nat → List Char → List Char
  | _, [] => []
  | 0, s => s
  | fuel + 1, c :: rest =>
    if pat ≠ [] ∧ pat.isPrefixOf (c :: rest) then
      repl ++ replaceAllAux pat repl fuel ((c :: rest).drop pat.length)
    else c :: replaceAllAux pat repl fuel rest

/-- Rust `str::replace`: replace every non-overlapping occurrence of `pat`
(taken non-empty) left to right. -/
def replaceAll (pat repl : List Char) (s : List Char) : List Char :=
  replaceAllAux pat repl s.length s

/-- Modelled from the spec: the file templates/virtual_device.conf.template
is referenced by `include_str!` in src/config_manager.rs but is not part of
this snapshot.  Spec §6 requires a template with exactly three substitution
points and a `filename = "<path>"` assignment that stays greppable by a
simple first-match pattern; this models such a template. -/
def CONFIG_TEMPLATE : String :=
  "filename = \"{IRFILETEMPLATE}\"\nnode.description = \"{DEVICENAMETEMPLATE}\"\nnode.name = \"effect_input.{VIRTUALNODENAME}\"\n"

/-- `ConfigManager::VIRTUAL_NODE_SUFFIX`. -/
def VIRTUAL_NODE_SUFFIX : String := "virtual-surround-7.1-irategoose"

/-- The template rendering of `ConfigManager::write_config`
(src/config_manager.rs lines 103-109): substitute the staged file path, the
device display name, and the fixed node name, in that order. -/
def renderConfig (device_name target : String) : String :=
  String.mk (replaceAll "{VIRTUALNODENAME}".toList VIRTUAL_NODE_SUFFIX.toList
    (replaceAll "{DEVICENAMETEMPLATE}".toList device_name.toList
      (replaceAll "{IRFILETEMPLATE}".toList target.toList CONFIG_TEMPLATE.toList)))

/-- Splits a character list at every occurrence of the separator character
(the single-character case of `str::split`). -/
def splitOnChar (c : Char) : List Char → List (List Char)
  | [] => [[]]
  | a :: rest =>
    let r := splitOnChar c rest
    if a = c then [] :: r
    else
      match r with
      | [] => [[a]]
      | h :: t => (a :: h) :: t

/-- Rust `Path::parent`, modelled on plain `/`-separated path strings:
everything before the last separator (`none` for the root and the empty
path). -/
def parentDir (p : String) : Option String :=
  if p = "" ∨ p = "/" then none
  else some (String.intercalate "/" (((splitOnChar '/' p.toList).map String.mk).dropLast))

/-- Rust `Path::join` for a relative right-hand component. -/
def pathJoin (dir name : String) : String :=
  if dir = "" then name
  else if dir.toList.getLast? = some '/' then dir ++ name
  else dir ++ "/" ++ name

/-- Rust `Path::file_name`, modelled on plain `/`-separated path strings:
the last non-empty, non-`.` component, unless it is `..`. -/
def file_name (p : String) : Option String :=
  match (((splitOnChar '/' p.toList).map String.mk).filter
      (fun s => s ≠ "" && s ≠ ".")).getLast? with
  | some l => if l = ".." then none else some l
  | none => none

/-- The settings snapshot that `ConfigManager` reads
(`virtual_device_name` and `dev_mode` of src/settings.rs `AppSettings`). -/
structure CfgSettings where
  virtual_device_name : String
  dev_mode : Bool

/-- `ConfigManager` (src/config_manager.rs): the absolute config path fixed
at construction plus the settings handle. -/
structure ConfigManager where
  config_path : String
  settings : CfgSettings

/-- The file-system state visible to `ConfigManager`: readable binary files
by absolute path, and the content of the configuration file (`none` when the
config file does not exist). -/
structure CfgFS where
  files : String → Option (List Byte)
  config : Option String

/-- Failure injection for the fallible steps of `write_config`: directory
creation, the WAV copy, config-parent creation, the config write, and the
service reload (`systemctl` exiting 0 or 5). -/
structure CfgEnv where
  create_hrir_ok : Bool
  copy_ok : Bool
  create_parent_ok : Bool
  write_ok : Bool
  reload_ok : Bool

/-- `ConfigManager::apply_config` (src/config_manager.rs lines 222-248):
succeeds immediately in dev mode, otherwise reports the service reload
outcome (exit code 0, or 5 which is treated as success). -/
def apply_config (env : CfgEnv) (cm : ConfigManager) : Bool :=
  cm.settings.dev_mode || env.reload_ok

/-- `ConfigManager::write_config` (src/config_manager.rs lines 84-134):
clear and recreate the `hrir` staging directory, copy the WAV into it,
render the config text, write the config file (deleting any partial file on
failure), and reload services (deleting the just-written config file on
failure). -/
def write_config (env : CfgEnv) (cm : ConfigManager) (fs : CfgFS)
    (wavefile_path : String) : CfgFS × Except String Unit :=
  match parentDir cm.config_path with
  | none => (fs, .error "Config path has no parent directory")
  | some parent =>
    let hrir_dir := pathJoin parent "hrir"
    let fs1 : CfgFS :=
      { fs with
          files := fun q =>
            if (hrir_dir ++ "/").toList.isPrefixOf q.toList then none else fs.files q }
    if env.create_hrir_ok = false then
      (fs1, .error "Failed to create hrir directory")
    else
      match file_name wavefile_path with
      | none => (fs1, .error "Source path has no filename")
      | some fname =>
        let target := pathJoin hrir_dir fname
        match fs1.files wavefile_path with
        | none => (fs1, .error "Failed to copy wav file")
        | some data =>
          if env.copy_ok = false then (fs1, .error "Failed to copy wav file")
          else
            let fs2 : CfgFS :=
              { fs1 with files := fun q => if q = target then some data else fs1.files q }
            let config_text := renderConfig cm.settings.virtual_device_name target
            if env.create_parent_ok = false then
              (fs2, .error "Failed to create config parent directory")
            else if env.write_ok = false then
              ({ fs2 with config := none }, .error "Failed to write config")
            else
              let fs3 : CfgFS := { fs2 with config := some config_text }
              if apply_config env cm then (fs3, .ok ())
              else ({ fs3 with config := none }, .error "systemctl failed")

/-- `ConfigManager::config_exists` (src/config_manager.rs lines 155-182):
`Ok(None)` when the config file is absent; otherwise parse the referenced
filename and return `Ok(Some(checksum))` with the re-computed checksum of
the referenced file (0 when damaged or unreadable). -/
def config_exists (cm : ConfigManager) (xxh3 : List Byte → Nat) (fs : CfgFS) :
    Except String (Option Nat) :=
  match fs.config with
  | none => .ok none
  | some content =>
    match extract_filename_from_config content with
    | .error e => .error ("Failed to parse config: " ++ e)
    | .ok file_path => .ok (some (config_checksum xxh3 (fs.files file_path)))

/-- `AppSettings` (src/settings.rs): only the fields the claims touch.
`active_wav_directory` and `dev_mode` carry `#[serde(skip)]` and are never
persisted. -/
structure AppSettings where
  wav_directory : Option String
  active_wav_directory : Option String
  virtual_device_name : String
  dev_mode : Bool

/-- `AppSettings::get_wav_directory` (src/settings.rs lines 120-124):
the runtime-only active directory wins over the persisted one. -/
def get_wav_directory (s : AppSettings) : Option String :=
  match s.active_wav_directory with
  | some d => some d
  | none => s.wav_directory

/-- Modelled from the spec: src/app_gui.rs calls `set_wav_directory` with an
`Option<PathBuf>` argument, but the src/settings.rs of this snapshot only
has a `PathBuf` variant.  Following that variant and the callers, setting
the directory stores the option in `wav_directory` and clears the
runtime-only `active_wav_directory`. -/
def set_wav_directory (s : AppSettings) (p : Option String) : AppSettings :=
  { s with wav_directory := p, active_wav_directory := none }

/-- Modelled from the spec: `is_wav_directory_set` is called by
src/app_gui.rs but absent from the src/settings.rs of this snapshot; per
the `safe_rescan` comments it reports whether the persisted `wav_directory`
field (as opposed to the runtime-only active directory) is set. -/
def is_wav_directory_set (s : AppSettings) : Bool :=
  s.wav_directory.isSome

/-- The environment of a rescan: existence and directory checks for
`on_rescan_click`, and the recursive scan plus per-file classification of
`FileManager::rescan_configured_directory` (`none` models an `Err` from
`fs::read_dir`). -/
structure ScanEnv where
  pathExists : String → Bool
  isDir : String → Bool
  scan : String → Option (List WavFileData)

/-- The `AppGUI` state the rescan claims touch, plus the persisted
WAV-directory value of the settings file on disk
(`persisted_wav_directory`). -/
structure AppState where
  settings : AppSettings
  persisted_wav_directory : Option String
  all_wav_index : WavFileIndex
  filtered_wav_index : Option WavFileIndex
  selected_checksum : Option Nat
  config_installed : Option Nat
  scroll_to_row : Option Nat
  directory_text : String
  modal_open : Bool
  modal_header : String
  modal_message : String

/-- `AppGUI::write_settings` / `AppSettings::save`: serialize the settings
to the settings file.  `active_wav_directory` is `#[serde(skip)]`, so the
directory value that reaches disk is `wav_directory`.  (A failed save shows
a modal and continues; the save itself is modelled as succeeding.) -/
def write_settings (st : AppState) : AppState :=
  { st with persisted_wav_directory := st.settings.wav_directory }

/-- `AppGUI::show_modal`. -/
def show_modal (st : AppState) (header message : String) : AppState :=
  { st with modal_open := true, modal_header := header, modal_message := message }

/-- `FileManager::rescan_configured_directory` as used by src/app_gui.rs:
scan the configured directory, classify, sort (HeSuVi first, then by path),
and build the index.  Scanning and per-file classification are delegated to
`env.scan`; the sorting step (src/file_manager.rs lines 87-97) is explicit. -/
def rescan_configured_directory (env : ScanEnv) (s : AppSettings) :
    Option WavFileIndex :=
  match get_wav_directory s with
  | none => some WavFileIndex.new
  | some dir =>
    match env.scan dir with
    | none => none
    | some recs => some (WavFileIndex.from_vec (sortRecords recs))

/-- `AppGUI::find_wav_by_checksum`. -/
def find_wav_by_checksum (st : AppState) (c : Nat) : Option WavFileData :=
  st.all_wav_index.get_by_checksum c

/-- `AppGUI::apply_auto_selection` (src/app_gui.rs lines 225-248). -/
def apply_auto_selection (st : AppState) : AppState :=
  let old_checksum := st.selected_checksum
  let sel : Option Nat :=
    match st.config_installed with
    | some checksum =>
      if checksum ≠ 0 then
        if (find_wav_by_checksum st checksum).isSome then some checksum else none
      else none
    | none => none
  let st1 := { st with selected_checksum := sel }
  if sel ≠ old_checksum ∧ sel.isSome then
    match st1.filtered_wav_index, sel with
    | some filtered, some c =>
      match filtered.index_of_checksum c with
      | some row => { st1 with scroll_to_row := some row }
      | none => st1
    | _, _ => st1
  else st1

/-- The UI-state update at the end of `safe_rescan`
(src/app_gui.rs lines 691-699): drop a selection that no longer resolves,
then auto-select the installed file. -/
def rescan_post_update (st : AppState) : AppState :=
  let st1 :=
    match st.selected_checksum with
    | some checksum =>
      if (find_wav_by_checksum st checksum).isNone then
        { st with selected_checksum := none }
      else st
    | none => st
  apply_auto_selection st1

/-- `AppGUI::safe_rescan` (src/app_gui.rs lines 663-701).  Besides the new
state, the result carries the ordered list of WAV-directory values written
to the settings file during the call, and the success flag.  In the
persisting branch the sequence is: persist `none`, restore the original path
in memory, scan, and persist the original path only after the scan
succeeded. -/
def safe_rescan (env : ScanEnv) (st : AppState) :
    AppState × List (Option String) × Bool :=
  let st0 := { st with filtered_wav_index := none }
  match get_wav_directory st0.settings with
  | none => ({ st0 with all_wav_index := st0.all_wav_index.clear }, [], true)
  | some dir =>
    if is_wav_directory_set st0.settings = false then
      match rescan_configured_directory env st0.settings with
      | none => (st0, [], false)
      | some idx => (rescan_post_update { st0 with all_wav_index := idx }, [], true)
    else
      let st1 := { st0 with settings := set_wav_directory st0.settings none }
      let st2 := write_settings st1
      let st3 := { st2 with settings := set_wav_directory st2.settings (some dir) }
      match rescan_configured_directory env st3.settings with
      | none => (st3, [none], false)
      | some idx =>
        let st4 := write_settings { st3 with all_wav_index := idx }
        (rescan_post_update st4, [none, some dir], true)

/-- Outcome of `on_rescan_click`: the input was rejected before any scan,
the rescan ran and succeeded, or the rescan ran and failed. -/
inductive RescanOutcome where
  | success
  | rejected
  | scanFailed
deriving DecidableEq, Repr

/-- `AppGUI::on_rescan_click` (src/app_gui.rs lines 613-658): validate the
typed directory, set it in the settings, and run `safe_rescan`. -/
def on_rescan_click (env : ScanEnv) (st : AppState) :
    AppState × List (Option String) × RescanOutcome :=
  let dir_text := rustTrim st.directory_text
  if dir_text = "" then (st, [], .rejected)
  else if env.pathExists dir_text = false then
    (show_modal st "Directory Not Found" "The specified directory does not exist.",
      [], .rejected)
  else if env.isDir dir_text = false then
    (show_modal st "Not a Directory" "The specified path is not a directory.",
      [], .rejected)
  else
    let st1 := { st with filtered_wav_index := none }
    let st2 := { st1 with settings := set_wav_directory st1.settings (some dir_text) }
    match safe_rescan env st2 with
    | (st3, trace, true) => (st3, trace, .success)
    | (st3, trace, false) =>
      (show_modal st3 "Rescan Error" "Failed to rescan directory", trace, .scanFailed)

/-- The UTF-8 encoded size in bytes of one character. -/
def charUtf8Size (c : Char) : Nat :=
  if c.toNat < 0x80 then 1
  else if c.toNat < 0x800 then 2
  else if c.toNat < 0x10000 then 3
  else 4

/-- Rust `str::len`: the UTF-8 byte length. -/
def byteLen (s : List Char) : Nat :=
  (s.map charUtf8Size).sum

/-- Rust byte slicing `&s[..n]` on a UTF-8 string: the character prefix of
exactly `n` bytes, or `none` (a panic) when `n` is not a character boundary
or is out of bounds. -/
def takeBytes : Nat → List Char → Option (List Char)
  | 0, _ => some []
  | _ + 1, [] => none
  | n + 1, c :: rest =>
    if charUtf8Size c ≤ n + 1 then
      (takeBytes (n + 1 - charUtf8Size c) rest).map (fun pre => c :: pre)
    else none

/-- `AppGUI::truncate_description` (src/app_gui.rs lines 215-222).  The
result is `none` exactly when the Rust code panics: the byte slice
`&description[..237]` falls inside a multi-byte character. -/
def truncate_description (description : List Char) : Option (List Char) :=
  if byteLen description ≤ 240 then some description
  else
    match takeBytes (240 - 3) description with
    | none => none
    | some truncated => some (trimEnd truncated ++ "...".toList)

/-- Record `a` of the spec's sort-order example: path `HeSuVi/z.wav`. -/
def recHesuviZ : WavFileData :=
  { path := "HeSuVi/z.wav", relative_path := "HeSuVi/z.wav",
    sample_rate := .Unknown, metadata := none, checksum := 1 }

/-- Record `b` of the spec's sort-order example: path `a.wav`. -/
def recPlainA : WavFileData :=
  { path := "a.wav", relative_path := "a.wav",
    sample_rate := .Unknown, metadata := none, checksum := 2 }

/-- Record `c` of the spec's sort-order example: path `HeSuVi/a.wav`. -/
def recHesuviA : WavFileData :=
  { path := "HeSuVi/a.wav", relative_path := "HeSuVi/a.wav",
    sample_rate := .Unknown, metadata := none, checksum := 3 }

/-- Two records sharing the non-zero checksum 5, with different paths. -/
def dupRecA : WavFileData :=
  { path := "/w/a.wav", relative_path := "a.wav",
    sample_rate := .F48000, metadata := none, checksum := 5 }

/-- Second record with checksum 5 (inserted later than `dupRecA`). -/
def dupRecB : WavFileData :=
  { path := "/w/b.wav", relative_path := "b.wav",
    sample_rate := .F48000, metadata := none, checksum := 5 }

/-- Scan environment for the C1 counterexample: `/new` exists and is a
directory, but reading it fails. -/
def exEnvC1 : ScanEnv :=
  { pathExists := fun p => p == "/new"
  , isDir := fun p => p == "/new"
  , scan := fun _ => none }

/-- Scan environment whose existence checks all fail. -/
def exEnvReject : ScanEnv :=
  { pathExists := fun _ => false
  , isDir := fun _ => false
  , scan := fun _ => none }

/-- Scan environment where every scan succeeds with an empty file list. -/
def exEnvOk : ScanEnv :=
  { pathExists := fun _ => true
  , isDir := fun _ => true
  , scan := fun _ => some [] }

/-- Settings with `/old` as the stored WAV directory. -/
def exSettingsOld : AppSettings :=
  { wav_directory := some "/old", active_wav_directory := none,
    virtual_device_name := "Virtual Surround Sink", dev_mode := false }

/-- App state before the C1 counterexample click: `/old` persisted on disk,
`/new` typed into the directory field. -/
def exStateOld : AppState :=
  { settings := exSettingsOld
  , persisted_wav_directory := some "/old"
  , all_wav_index := WavFileIndex.new
  , filtered_wav_index := none
  , selected_checksum := none
  , config_installed := none
  , scroll_to_row := none
  , directory_text := "/new"
  , modal_open := false, modal_header := "", modal_message := "" }

/-- A concrete `ConfigManager` with a production-shaped config path. -/
def exCM : ConfigManager :=
  { config_path := "/home/user/.config/pipewire/pipewire.conf.d/sink.conf"
  , settings := { virtual_device_name := "Virtual Surround Sink", dev_mode := false } }

/-- A file system holding one valid WAV at `/wavs/ir.wav` and no config. -/
def exFS : CfgFS :=
  { files := fun q => if q = "/wavs/ir.wav" then some sampleWav else none
  , config := none }

/-- A file system holding one valid WAV whose filename contains a double
quote, and no config. -/
def exFSquote : CfgFS :=
  { files := fun q => if q = "/wavs/a\"b.wav" then some sampleWav else none
  , config := none }

/-- Environment where every step succeeds. -/
def exEnvAllOk : CfgEnv :=
  { create_hrir_ok := true, copy_ok := true, create_parent_ok := true,
    write_ok := true, reload_ok := true }

/-- Environment where the config write fails. -/
def exEnvWriteFail : CfgEnv :=
  { create_hrir_ok := true, copy_ok := true, create_parent_ok := true,
    write_ok := false, reload_ok := true }

/-- Environment where the service reload fails. -/
def exEnvReloadFail : CfgEnv :=
  { create_hrir_ok := true, copy_ok := true, create_parent_ok := true,
    write_ok := true, reload_ok := false }

-- ===================================================================
-- Theorems
-- ===================================================================

example : wavDamaged (some sampleWav) = false := by decide
example : mapSampleRate (le32at24 sampleWav) = .F44100 := by decide
example : wavDamaged (some [82, 73]) = true := by decide

/-- C5: for every file content (unreadable, too-short, bad-magic, or valid),
the checksum that `config_exists` computes for the referenced WAV file equals
the checksum component of `detect_sample_rate_and_checksum` (classify) on the
same file: it is 0 when the file is unreadable, shorter than 28 bytes, or
fails the RIFF/WAVE magic check, the 64-bit hash of the full content
otherwise, and (whenever the hash of the content is itself non-zero) it is 0
exactly in the damaged cases. -/
theorem config_checksum_eq_classify_checksum (xxh3 : List Byte → Nat)
    (file : Option (List Byte)) :
    config_checksum xxh3 file = (detect_sample_rate_and_checksum xxh3 file).2 ∧
    (wavDamaged file = true → config_checksum xxh3 file = 0) ∧
    (∀ data, file = some data → wavDamaged file = false →
      config_checksum xxh3 file = xxh3 data) ∧
    (∀ data, file = some data → xxh3 data ≠ 0 →
      (config_checksum xxh3 file = 0 ↔ wavDamaged file = true)) := by
  cases file with
  | none =>
    refine ⟨rfl, fun _ => rfl, ?_, ?_⟩
    · intro data h
      exact absurd h (by simp)
    · intro data h
      exact absurd h (by simp)
  | some data =>
    by_cases h1 : data.length < 28
    · have hc : config_checksum xxh3 (some data) = 0 := by
        simp only [config_checksum]
        rw [if_neg]
        omega
      have hd : detect_sample_rate_and_checksum xxh3 (some data) = (.Damaged, 0) := by
        simp only [detect_sample_rate_and_checksum]
        rw [if_pos h1]
      have hw : wavDamaged (some data) = true := by
        simp only [wavDamaged]
        rw [if_pos h1]
      refine ⟨by rw [hc, hd], fun _ => hc, ?_, ?_⟩
      · intro d hdd hwf
        rw [hw] at hwf
        exact absurd hwf (by simp)
      · intro d hdd _
        simp [hc, hw]
    · by_cases h2 : data.take 4 ≠ riffMagic ∨ (data.drop 8).take 4 ≠ waveMagic
      · have hc : config_checksum xxh3 (some data) = 0 := by
          simp only [config_checksum]
          rw [if_neg]
          intro h
          rcases h2 with h2 | h2
          · exact h2 h.2.1
          · exact h2 h.2.2
        have hd : detect_sample_rate_and_checksum xxh3 (some data) = (.Damaged, 0) := by
          simp only [detect_sample_rate_and_checksum]
          rw [if_neg h1, if_pos h2]
        have hw : wavDamaged (some data) = true := by
          simp only [wavDamaged]
          rw [if_neg h1, if_pos h2]
        refine ⟨by rw [hc, hd], fun _ => hc, ?_, ?_⟩
        · intro d hdd hwf
          rw [hw] at hwf
          exact absurd hwf (by simp)
        · intro d hdd _
          simp [hc, hw]
      · have hc : config_checksum xxh3 (some data) = xxh3 data := by
          simp only [config_checksum]
          rw [if_pos]
          push_neg at h2
          exact ⟨by omega, h2.1, h2.2⟩
        have hd : detect_sample_rate_and_checksum xxh3 (some data)
            = (mapSampleRate (le32at24 data), xxh3 data) := by
          simp only [detect_sample_rate_and_checksum]
          rw [if_neg h1, if_neg h2]
        have hw : wavDamaged (some data) = false := by
          simp only [wavDamaged]
          rw [if_neg h1, if_neg h2]
        refine ⟨by rw [hc, hd], ?_, ?_, ?_⟩
        · intro h
          rw [hw] at h
          exact absurd h (by simp)
        · intro d hdd _
          rw [hc]
          cases hdd
          rfl
        · intro d hdd hnz
          cases hdd
          rw [hc, hw]
          constructor
          · intro h
            exact absurd h hnz
          · intro h
            exact absurd h (by simp)

/-- Witness for C5: on a concrete valid 28-byte WAV and the hash
`fun _ => 1`, the config-side checksum is the hash of the content. -/
theorem config_checksum_eq_classify_checksum_witness :
    config_checksum (fun _ => 1) (some sampleWav) = 1 :=
  (config_checksum_eq_classify_checksum (fun _ => 1) (some sampleWav)).2.2.1
    sampleWav rfl (by decide)

/-- `mapSampleRate` never yields `Damaged`. -/
theorem mapSampleRate_ne_damaged (n : Nat) : mapSampleRate n ≠ .Damaged := by
  unfold mapSampleRate
  split
  · intro h
    exact absurd h (by simp)
  · split
    · intro h
      exact absurd h (by simp)
    · split
      · intro h
        exact absurd h (by simp)
      · intro h
        exact absurd h (by simp)

/-- C6: `detect_sample_rate_and_checksum` (classify) returns `(Damaged, 0)`
if and only if the file is unreadable, shorter than 28 bytes, or fails the
RIFF/WAVE magic check; otherwise it returns the class obtained by reading the
little-endian 32-bit integer at byte offset 24 (44100, 48000, 96000 mapped to
their named classes, anything else to `Unknown`) paired with the 64-bit hash
of the entire file content. -/
theorem classify_spec (xxh3 : List Byte → Nat) (file : Option (List Byte)) :
    (detect_sample_rate_and_checksum xxh3 file = (WaveSampleRate.Damaged, 0)
      ↔ wavDamaged file = true) ∧
    (∀ data, file = some data → wavDamaged file = false →
      detect_sample_rate_and_checksum xxh3 file
        = (mapSampleRate (le32at24 data), xxh3 data)) := by
  cases file with
  | none => exact ⟨by simp [detect_sample_rate_and_checksum, wavDamaged], by simp⟩
  | some data =>
    by_cases h1 : data.length < 28
    · have hd : detect_sample_rate_and_checksum xxh3 (some data) = (.Damaged, 0) := by
        simp only [detect_sample_rate_and_checksum]
        rw [if_pos h1]
      have hw : wavDamaged (some data) = true := by
        simp only [wavDamaged]
        rw [if_pos h1]
      refine ⟨by simp [hd, hw], ?_⟩
      intro d hdd hwf
      rw [hw] at hwf
      exact absurd hwf (by simp)
    · by_cases h2 : data.take 4 ≠ riffMagic ∨ (data.drop 8).take 4 ≠ waveMagic
      · have hd : detect_sample_rate_and_checksum xxh3 (some data) = (.Damaged, 0) := by
          simp only [detect_sample_rate_and_checksum]
          rw [if_neg h1, if_pos h2]
        have hw : wavDamaged (some data) = true := by
          simp only [wavDamaged]
          rw [if_neg h1, if_pos h2]
        refine ⟨by simp [hd, hw], ?_⟩
        intro d hdd hwf
        rw [hw] at hwf
        exact absurd hwf (by simp)
      · have hd : detect_sample_rate_and_checksum xxh3 (some data)
            = (mapSampleRate (le32at24 data), xxh3 data) := by
          simp only [detect_sample_rate_and_checksum]
          rw [if_neg h1, if_neg h2]
        have hw : wavDamaged (some data) = false := by
          simp only [wavDamaged]
          rw [if_neg h1, if_neg h2]
        constructor
        · rw [hd, hw]
          constructor
          · intro h
            exact absurd (congrArg Prod.fst h) (mapSampleRate_ne_damaged _)
          · intro h
            exact absurd h (by simp)
        · intro d hdd _
          cases hdd
          exact hd

/-- Witness for C6: classify of a concrete valid 44100 Hz WAV header under
the hash `fun _ => 7`. -/
theorem classify_spec_witness :
    detect_sample_rate_and_checksum (fun _ => 7) (some sampleWav)
      = (WaveSampleRate.F44100, 7) :=
  ((classify_spec (fun _ => 7) (some sampleWav)).2 sampleWav rfl (by decide)).trans
    (by decide)

/-- The position map built by `from_vec`'s loop: looking up `c` finds the
position recorded by the last loop iteration whose record has the non-zero
checksum `c`, and falls back to the initial map otherwise. -/
theorem lookup_foldl (c : Nat) (m : Nat → Option Nat) (ps : List (Nat × WavFileData)) :
    (ps.foldl stepIdx m) c
      = Option.elim
          ((ps.filter (fun p => decide (p.2.checksum ≠ 0 ∧ p.2.checksum = c))).getLast?)
          (m c) (fun p => some p.1) := by
  induction ps using List.reverseRecOn with
  | nil => simp
  | append_singleton ps p ih =>
    rw [List.foldl_append, List.foldl_cons, List.foldl_nil, List.filter_append]
    by_cases hp : p.2.checksum ≠ 0 ∧ p.2.checksum = c
    · have hdec : decide (p.2.checksum ≠ 0 ∧ p.2.checksum = c) = true := decide_eq_true hp
      have hkeep : List.filter (fun p => decide (p.2.checksum ≠ 0 ∧ p.2.checksum = c)) [p]
          = [p] := by
        simp only [List.filter, hdec]
      rw [hkeep, List.getLast?_concat]
      simp only [Option.elim]
      unfold stepIdx
      rw [if_pos hp.1]
      show (if c = p.2.checksum then some p.1 else List.foldl stepIdx m ps c) = some p.1
      rw [if_pos hp.2.symm]
    · have hdec : decide (p.2.checksum ≠ 0 ∧ p.2.checksum = c) = false := decide_eq_false hp
      have hdrop : List.filter (fun p => decide (p.2.checksum ≠ 0 ∧ p.2.checksum = c)) [p]
          = [] := by
        simp only [List.filter, hdec]
      rw [hdrop, List.append_nil, ← ih]
      unfold stepIdx
      by_cases hz : p.2.checksum ≠ 0
      · rw [if_pos hz]
        have hne : c ≠ p.2.checksum := by
          intro he
          exact hp ⟨hz, he.symm⟩
        show (if c = p.2.checksum then some p.1 else List.foldl stepIdx m ps c)
          = List.foldl stepIdx m ps c
        rw [if_neg hne]
      · rw [if_neg hz]

/-- `get_by_checksum` after `from_vec` returns the last record of the input
vector carrying the (non-zero) checksum. -/
theorem from_vec_get_by_checksum (l : List WavFileData) (c : Nat) (hc : c ≠ 0) :
    (WavFileIndex.from_vec l).get_by_checksum c
      = (l.filter (fun r => decide (r.checksum = c))).getLast? := by
  unfold WavFileIndex.get_by_checksum WavFileIndex.from_vec
  rw [if_neg hc]
  simp only
  rw [lookup_foldl]
  have hfc : l.enum.filter (fun p => decide (p.2.checksum ≠ 0 ∧ p.2.checksum = c))
      = l.enum.filter (fun p => decide (p.2.checksum = c)) := by
    apply List.filter_congr
    intro p _
    by_cases h : p.2.checksum = c
    · simp only [h, decide_eq_true_eq]
      have : c ≠ 0 := hc
      simp [this]
    · simp [h]
  rw [hfc]
  have hmap : (l.enum.filter (fun p => decide (p.2.checksum = c))).map Prod.snd
      = l.filter (fun r => decide (r.checksum = c)) := by
    have h2 : l.enum.map Prod.snd = l := List.enumFrom_map_snd 0 l
    calc (l.enum.filter (fun p => decide (p.2.checksum = c))).map Prod.snd
        = ((l.enum.map Prod.snd).filter (fun r => decide (r.checksum = c))) := by
          rw [List.filter_map]
          rfl
      _ = l.filter (fun r => decide (r.checksum = c)) := by rw [h2]
  rw [← hmap, List.getLast?_map]
  cases hlast : (l.enum.filter (fun p => decide (p.2.checksum = c))).getLast? with
  | none => rfl
  | some p =>
    simp only [Option.elim, Option.map_some', Option.some_bind]
    have hmem : p ∈ l.enum.filter (fun p => decide (p.2.checksum = c)) :=
      List.mem_of_getLast?_eq_some hlast
    have hmem2 : p ∈ l.enum := (List.mem_filter.mp hmem).1
    have hget : l[p.1]? = some p.2 := by
      have hp : (p.1, p.2) ∈ l.enum := by
        rw [Prod.mk.eta]
        exact hmem2
      exact List.mk_mem_enum_iff_getElem?.mp hp
    rw [hget]

/-- C8: lookups are last-wins and 0 is a sentinel.  For every vector of
records, `get_by_checksum` on the index built by `from_vec` with a non-zero
checksum returns the last record inserted with that checksum (so of any two
records with the same non-zero checksum the later-inserted one wins); a
record inserted by `add` with a non-zero checksum wins over everything
before it; and `get_by_checksum 0` is `none` for every index whatsoever. -/
theorem get_by_checksum_last_wins :
    (∀ (l : List WavFileData) (c : Nat), c ≠ 0 →
      (WavFileIndex.from_vec l).get_by_checksum c
        = (l.filter (fun r => decide (r.checksum = c))).getLast?) ∧
    (∀ (idx : WavFileIndex) (r : WavFileData), r.checksum ≠ 0 →
      (idx.add r).get_by_checksum r.checksum = some r) ∧
    (∀ idx : WavFileIndex, idx.get_by_checksum 0 = none) := by
  refine ⟨from_vec_get_by_checksum, ?_, ?_⟩
  · intro idx r hr
    unfold WavFileIndex.add WavFileIndex.get_by_checksum
    rw [if_neg hr]
    simp only
    rw [if_pos hr, if_pos rfl, Option.some_bind, List.getElem?_concat_length]
  · intro idx
    unfold WavFileIndex.get_by_checksum
    rw [if_pos rfl]

/-- Witness for C8: of two concrete records sharing checksum 5, the
later-inserted one is returned. -/
theorem get_by_checksum_last_wins_witness :
    (WavFileIndex.from_vec [dupRecA, dupRecB]).get_by_checksum 5 = some dupRecB :=
  (get_by_checksum_last_wins.1 [dupRecA, dupRecB] 5 (by decide)).trans (by decide)

/-- C9: `filtered_clone` is idempotent: filtering an already-filtered index
again with the same (pure) predicate yields an index with the same records,
in the same order -- indeed the very same index. -/
theorem filtered_clone_idempotent (idx : WavFileIndex) (p : WavFileData → Bool) :
    (idx.filtered_clone p).filtered_clone p = idx.filtered_clone p := by
  unfold WavFileIndex.filtered_clone
  have h : (WavFileIndex.from_vec (idx.items.filter p)).items = idx.items.filter p := rfl
  rw [h, List.filter_filter]
  simp only [Bool.and_self]

/-- Swapping the arguments of `pathCmp` swaps the ordering. -/
theorem pathCmp_swap : ∀ x y : List Char, pathCmp y x = (pathCmp x y).swap := by
  intro x
  induction x with
  | nil =>
    intro y
    cases y with
    | nil => rfl
    | cons b bs => rfl
  | cons a as ih =>
    intro y
    cases y with
    | nil => rfl
    | cons b bs =>
      simp only [pathCmp]
      by_cases hab : a < b
      · have hba : ¬ b < a := lt_asymm hab
        rw [if_neg hba, if_pos hab, if_pos hab]
        rfl
      · by_cases hba : b < a
        · rw [if_pos hba, if_neg hab, if_pos hba]
          rfl
        · rw [if_neg hab, if_neg hba, if_neg hab, if_neg hba]
          exact ih bs

/-- `pathCmp` returns `eq` exactly on equal lists. -/
theorem pathCmp_eq_iff : ∀ x y : List Char, pathCmp x y = .eq ↔ x = y := by
  intro x
  induction x with
  | nil =>
    intro y
    cases y with
    | nil => simp [pathCmp]
    | cons b bs => simp [pathCmp]
  | cons a as ih =>
    intro y
    cases y with
    | nil => simp [pathCmp]
    | cons b bs =>
      simp only [pathCmp]
      by_cases hab : a < b
      · rw [if_pos hab]
        constructor
        · intro h
          exact Ordering.noConfusion h
        · intro h
          injection h with h1 h2
          exact absurd h1 (ne_of_lt hab)
      · by_cases hba : b < a
        · rw [if_neg hab, if_pos hba]
          constructor
          · intro h
            exact Ordering.noConfusion h
          · intro h
            injection h with h1 h2
            exact absurd h1.symm (ne_of_lt hba)
        · rw [if_neg hab, if_neg hba]
          have heq : a = b := le_antisymm (not_lt.mp hba) (not_lt.mp hab)
          subst heq
          rw [ih bs]
          simp

/-- Strict transitivity of `pathCmp`. -/
theorem pathCmp_lt_trans : ∀ x y z : List Char,
    pathCmp x y = .lt → pathCmp y z = .lt → pathCmp x z = .lt := by
  intro x
  induction x with
  | nil =>
    intro y z h1 h2
    cases y with
    | nil => exact absurd h1 (by simp [pathCmp])
    | cons b bs =>
      cases z with
      | nil => exact absurd h2 (by simp [pathCmp])
      | cons c cs => rfl
  | cons a as ih =>
    intro y z h1 h2
    cases y with
    | nil => exact absurd h1 (by simp [pathCmp])
    | cons b bs =>
      cases z with
      | nil => exact absurd h2 (by simp [pathCmp])
      | cons c cs =>
        simp only [pathCmp] at h1 h2 ⊢
        by_cases hab : a < b
        · rw [if_pos hab] at h1
          by_cases hbc : b < c
          · rw [if_pos (lt_trans hab hbc)]
          · rw [if_neg hbc] at h2
            by_cases hcb : c < b
            · rw [if_pos hcb] at h2
              exact Ordering.noConfusion h2
            · have hbc' : b = c := le_antisymm (not_lt.mp hcb) (not_lt.mp hbc)
              subst hbc'
              rw [if_pos hab]
        · rw [if_neg hab] at h1
          by_cases hba : b < a
          · rw [if_pos hba] at h1
            exact Ordering.noConfusion h1
          · rw [if_neg hba] at h1
            have hab' : a = b := le_antisymm (not_lt.mp hba) (not_lt.mp hab)
            subst hab'
            by_cases hac : a < c
            · rw [if_pos hac]
            · rw [if_neg hac] at h2 ⊢
              by_cases hca : c < a
              · rw [if_pos hca] at h2
                exact Ordering.noConfusion h2
              · rw [if_neg hca] at h2 ⊢
                exact ih bs cs h1 h2

/-- Non-strict transitivity of `pathCmp`. -/
theorem pathCmp_le_trans (x y z : List Char)
    (h1 : pathCmp x y ≠ .gt) (h2 : pathCmp y z ≠ .gt) : pathCmp x z ≠ .gt := by
  have e1 : pathCmp x y = .lt ∨ pathCmp x y = .eq := by
    cases h : pathCmp x y
    · exact Or.inl rfl
    · exact Or.inr rfl
    · exact absurd h h1
  have e2 : pathCmp y z = .lt ∨ pathCmp y z = .eq := by
    cases h : pathCmp y z
    · exact Or.inl rfl
    · exact Or.inr rfl
    · exact absurd h h2
  rcases e1 with e1 | e1
  · rcases e2 with e2 | e2
    · rw [pathCmp_lt_trans x y z e1 e2]
      simp
    · have hyz : y = z := (pathCmp_eq_iff y z).mp e2
      subst hyz
      rw [e1]
      simp
  · have hxy : x = y := (pathCmp_eq_iff x y).mp e1
    subst hxy
    exact h2

/-- Totality of `pathCmp`'s non-strict order. -/
theorem pathCmp_total (x y : List Char) : pathCmp x y ≠ .gt ∨ pathCmp y x ≠ .gt := by
  cases h : pathCmp x y
  · exact Or.inl (by simp [h])
  · exact Or.inl (by simp [h])
  · right
    rw [pathCmp_swap x y, h]
    simp [Ordering.swap]

/-- `wavLe` is the non-`gt` test of the comparator. -/
theorem wavLe_iff (a b : WavFileData) : wavLe a b = true ↔ wavOrder a b ≠ .gt := by
  unfold wavLe
  cases h : wavOrder a b <;> simp

/-- The comparator's non-strict order is total. -/
theorem wavLe_total (a b : WavFileData) : wavLe a b = true ∨ wavLe b a = true := by
  rw [wavLe_iff, wavLe_iff]
  cases ha : isHesuvi a <;> cases hb : isHesuvi b <;>
    simp only [wavOrder, ha, hb]
  · exact pathCmp_total _ _
  · right
    simp
  · left
    simp
  · exact pathCmp_total _ _

/-- The comparator's non-strict order is transitive. -/
theorem wavLe_trans (a b c : WavFileData)
    (h1 : wavLe a b = true) (h2 : wavLe b c = true) : wavLe a c = true := by
  rw [wavLe_iff] at h1 h2 ⊢
  cases ha : isHesuvi a <;> cases hb : isHesuvi b <;> cases hc : isHesuvi c <;>
    simp only [wavOrder, ha, hb, hc] at h1 h2 ⊢
  · exact pathCmp_le_trans _ _ _ h1 h2
  · exact absurd rfl h2
  · exact absurd rfl h1
  · exact absurd rfl h1
  · simp
  · exact absurd rfl h2
  · simp
  · exact pathCmp_le_trans _ _ _ h1 h2

/-- What `wavLe a b` means for adjacent sorted records: a non-HeSuVi record
never comes before a HeSuVi one, and within a group the paths are in
non-decreasing comparison order. -/
theorem wavLe_group {a b : WavFileData} (h : wavLe a b = true) :
    (isHesuvi b = true → isHesuvi a = true) ∧
    (isHesuvi a = isHesuvi b → pathCmp a.path.toList b.path.toList ≠ Ordering.gt) := by
  rw [wavLe_iff] at h
  constructor
  · intro hb
    by_contra ha
    have ha' : isHesuvi a = false := by
      cases hh : isHesuvi a
      · rfl
      · exact absurd hh ha
    apply h
    simp only [wavOrder, ha', hb]
  · intro hab hgt
    apply h
    cases hh : isHesuvi a
    · have hb' : isHesuvi b = false := by rw [← hab, hh]
      simp only [wavOrder, hh, hb']
      exact hgt
    · have hb' : isHesuvi b = true := by rw [← hab, hh]
      simp only [wavOrder, hh, hb']
      exact hgt

/-- The sorted record list is pairwise ordered by the comparator. -/
theorem sortRecords_pairwise (l : List WavFileData) :
    (sortRecords l).Pairwise (fun a b => wavLe a b = true) := by
  unfold sortRecords
  haveI : IsTotal WavFileData (fun a b => wavLe a b = true) := ⟨wavLe_total⟩
  haveI : IsTrans WavFileData (fun a b => wavLe a b = true) := ⟨wavLe_trans⟩
  exact List.sorted_insertionSort _ l

/-- C7: after a rescan, every record whose absolute path contains
`HeSuVi/` is ordered before every record whose path does not, within each of
the two groups records are in non-decreasing path-comparison order, the
spec's concrete example sorts as `[HeSuVi/a.wav, HeSuVi/z.wav, a.wav]`, and
the underlying comparator order is total and transitive (and the sort, being
a function of the record list, is deterministic). -/
theorem rescan_sort_order :
    (∀ (env : ScanEnv) (s : AppSettings) (idx : WavFileIndex),
      rescan_configured_directory env s = some idx →
      idx.items.Pairwise (fun a b =>
        (isHesuvi b = true → isHesuvi a = true) ∧
        (isHesuvi a = isHesuvi b →
          pathCmp a.path.toList b.path.toList ≠ Ordering.gt))) ∧
    sortRecords [recHesuviZ, recPlainA, recHesuviA]
      = [recHesuviA, recHesuviZ, recPlainA] ∧
    (∀ a b, wavLe a b = true ∨ wavLe b a = true) ∧
    (∀ a b c, wavLe a b = true → wavLe b c = true → wavLe a c = true) := by
  refine ⟨?_, by decide, wavLe_total, wavLe_trans⟩
  intro env s idx h
  unfold rescan_configured_directory at h
  split at h
  · injection h with h
    cases h
    exact List.Pairwise.nil
  · split at h
    · exact Option.noConfusion h
    · injection h with h
      cases h
      exact (sortRecords_pairwise _).imp wavLe_group

/-- Witness for C7: the comparator's transitivity applied at three concrete
records. -/
theorem rescan_sort_order_witness :
    wavLe recHesuviA recPlainA = true :=
  rescan_sort_order.2.2.2 recHesuviA recHesuviZ recPlainA (by decide) (by decide)

/-- `set_wav_directory` makes `get_wav_directory` return exactly the value
just set (the runtime-only active directory is cleared). -/
theorem get_wav_directory_set (s : AppSettings) (p : Option String) :
    get_wav_directory (set_wav_directory s p) = p := rfl

/-- `show_modal` does not touch the persisted settings file. -/
theorem show_modal_persisted (st : AppState) (h m : String) :
    (show_modal st h m).persisted_wav_directory = st.persisted_wav_directory := rfl

/-- Zeta-expanded defining equation of `safe_rescan`, with the intermediate
states inlined (all equalities hold definitionally). -/
theorem safe_rescan_eq (env : ScanEnv) (st : AppState) :
    safe_rescan env st =
      match get_wav_directory st.settings with
      | none =>
        ({ st with
            filtered_wav_index := none,
            all_wav_index := WavFileIndex.clear st.all_wav_index }, [], true)
      | some dir =>
        if is_wav_directory_set st.settings = false then
          match rescan_configured_directory env st.settings with
          | none => ({ st with filtered_wav_index := none }, [], false)
          | some idx =>
            (rescan_post_update
                { st with
                    filtered_wav_index := none,
                    all_wav_index := idx },
              [], true)
        else
          match rescan_configured_directory env
              (set_wav_directory (set_wav_directory st.settings none) (some dir)) with
          | none =>
            ({ st with
                filtered_wav_index := none,
                settings := set_wav_directory (set_wav_directory st.settings none) (some dir),
                persisted_wav_directory := none },
              [none], false)
          | some idx =>
            (rescan_post_update
                { st with
                    filtered_wav_index := none,
                    settings :=
                      set_wav_directory (set_wav_directory st.settings none) (some dir),
                    persisted_wav_directory := some dir,
                    all_wav_index := idx },
              [none, some dir], true)
    := rfl

/-- `rescan_configured_directory` with a configured directory reduces to a
case split on the scan of that directory. -/
theorem rescan_configured_some (env : ScanEnv) (s : AppSettings) (dir : String)
    (h : get_wav_directory s = some dir) :
    rescan_configured_directory env s
      = match env.scan dir with
        | none => none
        | some recs => some (WavFileIndex.from_vec (sortRecords recs)) := by
  unfold rescan_configured_directory
  rw [h]

/-- With no directory configured at all, `safe_rescan` just clears the
index and persists nothing. -/
theorem safe_rescan_no_dir_eq (env : ScanEnv) (st : AppState)
    (h : get_wav_directory st.settings = none) :
    safe_rescan env st
      = ({ st with
            filtered_wav_index := none,
            all_wav_index := WavFileIndex.clear st.all_wav_index }, [], true) := by
  rw [safe_rescan_eq, h]

/-- With only the runtime-only active directory in play, `safe_rescan`
scans without persisting anything. -/
theorem safe_rescan_active_eq (env : ScanEnv) (st : AppState) (dir : String)
    (h : get_wav_directory st.settings = some dir)
    (h2 : is_wav_directory_set st.settings = false) :
    safe_rescan env st =
      match env.scan dir with
      | none => ({ st with filtered_wav_index := none }, [], false)
      | some recs =>
        (rescan_post_update
            { st with
                filtered_wav_index := none,
                all_wav_index := WavFileIndex.from_vec (sortRecords recs) },
          [], true) := by
  rw [safe_rescan_eq]
  simp only [h]
  rw [if_pos h2]
  rw [rescan_configured_some env st.settings dir h]
  cases env.scan dir with
  | none => rfl
  | some recs => rfl

/-- In the persisting branch (a persisted directory is configured),
`safe_rescan` first persists `none`, scans, and persists the directory only
on success. -/
theorem safe_rescan_persisting_eq (env : ScanEnv) (st : AppState) (dir : String)
    (h : get_wav_directory st.settings = some dir)
    (h2 : is_wav_directory_set st.settings = true) :
    safe_rescan env st =
      match env.scan dir with
      | none =>
        ({ st with
            filtered_wav_index := none,
            settings := set_wav_directory (set_wav_directory st.settings none) (some dir),
            persisted_wav_directory := none },
          [none], false)
      | some recs =>
        (rescan_post_update
            { st with
                filtered_wav_index := none,
                settings :=
                  set_wav_directory (set_wav_directory st.settings none) (some dir),
                persisted_wav_directory := some dir,
                all_wav_index := WavFileIndex.from_vec (sortRecords recs) },
          [none, some dir], true) := by
  rw [safe_rescan_eq]
  simp only [h]
  rw [if_neg (by rw [h2]; simp)]
  rw [rescan_configured_some env _ dir (get_wav_directory_set _ _)]
  cases env.scan dir with
  | none => rfl
  | some recs => rfl

/-- C2: commit-after-verify.  The settings-file writes that `safe_rescan`
performs are: none at all (no persisted directory in play, or an early
return), or exactly `[none]` before a scan that then fails, or exactly
`[none, original]` where the original directory value is written only after
the scan succeeded.  Hence at no point during a rescan is a directory whose
scan has not yet completed successfully durably saved, and a non-`none`
value is written only as the final write of a successful rescan. -/
theorem safe_rescan_commit_after_verify (env : ScanEnv) (st : AppState) :
    ((safe_rescan env st).2.2 = true →
      (safe_rescan env st).2.1 = [] ∨
      (safe_rescan env st).2.1 = [none, get_wav_directory st.settings]) ∧
    ((safe_rescan env st).2.2 = false →
      (safe_rescan env st).2.1 = [] ∨ (safe_rescan env st).2.1 = [none]) ∧
    (∀ p : String, some p ∈ (safe_rescan env st).2.1 →
      (safe_rescan env st).2.2 = true ∧
      (safe_rescan env st).2.1.getLast? = some (some p)) := by
  cases hd : get_wav_directory st.settings with
  | none =>
    rw [safe_rescan_no_dir_eq env st hd]
    exact ⟨fun _ => Or.inl rfl, fun hf => Bool.noConfusion hf,
      fun p hp => absurd hp (List.not_mem_nil _)⟩
  | some dir =>
    cases h2 : is_wav_directory_set st.settings with
    | false =>
      rw [safe_rescan_active_eq env st dir hd h2]
      cases hscan : env.scan dir with
      | none =>
        exact ⟨fun ht => Bool.noConfusion ht, fun _ => Or.inl rfl,
          fun p hp => absurd hp (List.not_mem_nil _)⟩
      | some recs =>
        exact ⟨fun _ => Or.inl rfl, fun hf => Bool.noConfusion hf,
          fun p hp => absurd hp (List.not_mem_nil _)⟩
    | true =>
      rw [safe_rescan_persisting_eq env st dir hd h2]
      cases hscan : env.scan dir with
      | none =>
        refine ⟨fun ht => Bool.noConfusion ht, fun _ => Or.inr rfl, fun p hp => ?_⟩
        have hp' : some p ∈ [(none : Option String)] := hp
        simp at hp'
      | some recs =>
        refine ⟨fun _ => Or.inr rfl, fun hf => Bool.noConfusion hf, fun p hp => ?_⟩
        refine ⟨rfl, ?_⟩
        have hp' : some p ∈ [(none : Option String), some dir] := hp
        show [(none : Option String), some dir].getLast? = some (some p)
        simp only [List.mem_cons, List.not_mem_nil, or_false] at hp'
        rcases hp' with hp' | hp'
        · exact Option.noConfusion hp'
        · rw [hp']
          rfl

/-- Witness for C2: a concrete successful persisting rescan writes exactly
`[none, some "/old"]`. -/
theorem safe_rescan_commit_after_verify_witness :
    (safe_rescan exEnvOk exStateOld).2.1 = [] ∨
    (safe_rescan exEnvOk exStateOld).2.1
      = [none, get_wav_directory exStateOld.settings] :=
  (safe_rescan_commit_after_verify exEnvOk exStateOld).1 (by rfl)

/-- Zeta-expanded defining equation of `on_rescan_click` (holds
definitionally). -/
theorem on_rescan_click_eq (env : ScanEnv) (st : AppState) :
    on_rescan_click env st =
      if (rustTrim st.directory_text) = "" then (st, [], .rejected)
      else if env.pathExists (rustTrim st.directory_text) = false then
        (show_modal st "Directory Not Found" "The specified directory does not exist.",
          [], .rejected)
      else if env.isDir (rustTrim st.directory_text) = false then
        (show_modal st "Not a Directory" "The specified path is not a directory.",
          [], .rejected)
      else
        match safe_rescan env
            { st with
                filtered_wav_index := none,
                settings :=
                  set_wav_directory st.settings (some (rustTrim st.directory_text)) } with
        | (st3, trace, true) => (st3, trace, .success)
        | (st3, trace, false) =>
          (show_modal st3 "Rescan Error" "Failed to rescan directory", trace, .scanFailed)
    := rfl

/-- C1 (amended): a rescan click that does not complete a successful scan
leaves the persisted directory value unchanged when the input was rejected
before scanning (empty text, nonexistent path, or not a directory), and
leaves it `none` -- not the previously persisted value -- when the scan
itself fails. -/
theorem on_rescan_click_failed_persistence (env : ScanEnv) (st : AppState) :
    ((on_rescan_click env st).2.2 = RescanOutcome.rejected →
      (on_rescan_click env st).1.persisted_wav_directory
        = st.persisted_wav_directory) ∧
    ((on_rescan_click env st).2.2 = RescanOutcome.scanFailed →
      (on_rescan_click env st).1.persisted_wav_directory = none) := by
  rw [on_rescan_click_eq]
  by_cases h1 : (rustTrim st.directory_text) = ""
  · rw [if_pos h1]
    exact ⟨fun _ => rfl, fun hf => RescanOutcome.noConfusion hf⟩
  · rw [if_neg h1]
    by_cases h2 : env.pathExists (rustTrim st.directory_text) = false
    · rw [if_pos h2]
      exact ⟨fun _ => rfl, fun hf => RescanOutcome.noConfusion hf⟩
    · rw [if_neg h2]
      by_cases h3 : env.isDir (rustTrim st.directory_text) = false
      · rw [if_pos h3]
        exact ⟨fun _ => rfl, fun hf => RescanOutcome.noConfusion hf⟩
      · rw [if_neg h3]
        split
        · exact ⟨fun hr => RescanOutcome.noConfusion hr,
            fun hf => RescanOutcome.noConfusion hf⟩
        · rename_i st3 trace heq
          refine ⟨fun hr => RescanOutcome.noConfusion hr, fun _ => ?_⟩
          have hX := safe_rescan_persisting_eq env
            { st with
                filtered_wav_index := none,
                settings :=
                  set_wav_directory st.settings (some (rustTrim st.directory_text)) }
            (rustTrim st.directory_text) rfl rfl
          rw [heq] at hX
          cases hscan : env.scan (rustTrim st.directory_text) with
          | none =>
            rw [hscan] at hX
            have h31 : st3
                = { st with
                    filtered_wav_index := none,
                    settings :=
                      set_wav_directory
                        (set_wav_directory
                          ({ st with
                              filtered_wav_index := none,
                              settings :=
                                set_wav_directory st.settings
                                  (some (rustTrim st.directory_text)) } : AppState).settings
                          none)
                        (some (rustTrim st.directory_text)),
                    persisted_wav_directory := none } := congrArg (fun r => r.1) hX
            rw [show_modal_persisted, h31]
          | some recs =>
            rw [hscan] at hX
            have hflag := congrArg (fun r => r.2.2) hX
            exact absurd hflag (by simp)

/-- Witness for C1: a click rejected because the typed path does not exist
leaves the persisted value untouched. -/
theorem on_rescan_click_failed_persistence_witness :
    (on_rescan_click exEnvReject exStateOld).1.persisted_wav_directory
      = exStateOld.persisted_wav_directory :=
  (on_rescan_click_failed_persistence exEnvReject exStateOld).1 (by rfl)

/-- Counterexample to C1 as stated: with `/old` persisted, rescanning the
existing but unreadable directory `/new` fails, and afterwards the persisted
WAV-directory value is `none`, not the previously persisted `/old`. -/
theorem failed_rescan_counterexample :
    (on_rescan_click exEnvC1 exStateOld).2.2 = RescanOutcome.scanFailed ∧
    exStateOld.persisted_wav_directory = some "/old" ∧
    (on_rescan_click exEnvC1 exStateOld).1.persisted_wav_directory = none := by
  refine ⟨?_, rfl, ?_⟩ <;> rfl

/-- C3: `write_config` is atomic with respect to the configuration file.
If the step that writes the configuration text fails, or the subsequent
service-reload step fails, then `write_config` returns an error, the
configuration file does not exist afterwards, and a subsequent
`config_exists` query returns `Ok(none)` (Absent).  The hypotheses say the
failing step was actually reached: the earlier steps (staging-directory
creation, the WAV copy from a readable source outside the staging
directory, config-parent creation) succeed. -/
theorem write_config_rollback (env : CfgEnv) (cm : ConfigManager) (fs : CfgFS)
    (w : String) (xxh3 : List Byte → Nat) (d fname : String) (data : List Byte)
    (hp : parentDir cm.config_path = some d)
    (hf : file_name w = some fname)
    (hnp : (pathJoin d "hrir" ++ "/").toList.isPrefixOf w.toList = false)
    (hsrc : fs.files w = some data)
    (hHrir : env.create_hrir_ok = true)
    (hCopy : env.copy_ok = true)
    (hParent : env.create_parent_ok = true)
    (hfail : env.write_ok = false ∨ apply_config env cm = false) :
    (∃ e, (write_config env cm fs w).2 = Except.error e) ∧
    (write_config env cm fs w).1.config = none ∧
    config_exists cm xxh3 (write_config env cm fs w).1 = .ok none := by
  have hnp' : ¬ ((pathJoin d "hrir").data ++ ['/'] <+: w.data) := by
    intro hpre
    have hb : (pathJoin d "hrir" ++ "/").toList.isPrefixOf w.toList = true :=
      List.isPrefixOf_iff_prefix.mpr hpre
    rw [hnp] at hb
    exact Bool.noConfusion hb
  have hcfg : (write_config env cm fs w).1.config = none ∧
      (∃ e, (write_config env cm fs w).2 = Except.error e) := by
    rcases hfail with hw | ha
    · constructor <;>
        simp [write_config, hp, hf, hnp', hsrc, hHrir, hCopy, hParent, hw]
    · by_cases hw : env.write_ok = false
      · constructor <;>
          simp [write_config, hp, hf, hnp', hsrc, hHrir, hCopy, hParent, hw]
      · have hw' : env.write_ok = true := by
          revert hw
          cases env.write_ok <;> simp
        constructor <;>
          simp [write_config, hp, hf, hnp', hsrc, hHrir, hCopy, hParent, hw', ha]
  refine ⟨hcfg.2, hcfg.1, ?_⟩
  unfold config_exists
  rw [hcfg.1]

/-- Witness for C3: a concrete failing config write leaves no config file
behind and `config_exists` reports Absent. -/
theorem write_config_rollback_witness :
    (write_config exEnvWriteFail exCM exFS "/wavs/ir.wav").1.config = none ∧
    config_exists exCM (fun _ => 1) (write_config exEnvWriteFail exCM exFS "/wavs/ir.wav").1
      = .ok none :=
  let h := write_config_rollback exEnvWriteFail exCM exFS "/wavs/ir.wav" (fun _ => 1)
    "/home/user/.config/pipewire/pipewire.conf.d" "ir.wav" sampleWav
    (by decide) (by decide) (by decide) (by decide) rfl rfl rfl (Or.inl rfl)
  ⟨h.2.1, h.2.2⟩

/-- Every character occupies at least one UTF-8 byte. -/
theorem charUtf8Size_pos (c : Char) : 1 ≤ charUtf8Size c := by
  unfold charUtf8Size
  split
  · omega
  · split
    · omega
    · split
      · omega
      · omega

/-- Byte length distributes over append. -/
theorem byteLen_append (s t : List Char) :
    byteLen (s ++ t) = byteLen s + byteLen t := by
  simp [byteLen]

/-- Byte length is invariant under reversal. -/
theorem byteLen_reverse (s : List Char) : byteLen s.reverse = byteLen s := by
  simp [byteLen, List.sum_reverse]

/-- Dropping a prefix cannot increase the byte length. -/
theorem byteLen_dropWhile_le (p : Char → Bool) (s : List Char) :
    byteLen (s.dropWhile p) ≤ byteLen s := by
  induction s with
  | nil => simp [byteLen]
  | cons a rest ih =>
    cases hpa : p a with
    | false =>
      simp only [List.dropWhile, hpa]
      exact le_refl _
    | true =>
      simp only [List.dropWhile, hpa]
      have h2 : byteLen (a :: rest) = charUtf8Size a + byteLen rest := by
        simp [byteLen]
      have h3 := charUtf8Size_pos a
      omega

/-- Trimming trailing whitespace cannot increase the byte length. -/
theorem trimEnd_byteLen_le (s : List Char) : byteLen (trimEnd s) ≤ byteLen s := by
  unfold trimEnd
  rw [byteLen_reverse]
  calc byteLen (s.reverse.dropWhile unicodeWs)
      ≤ byteLen s.reverse := byteLen_dropWhile_le _ _
    _ = byteLen s := byteLen_reverse s

/-- A successful byte-slice has byte length at most the requested size. -/
theorem takeBytes_byteLen : ∀ (n : Nat) (s pre : List Char),
    takeBytes n s = some pre → byteLen pre ≤ n := by
  intro n s
  induction s generalizing n with
  | nil =>
    intro pre h
    cases n with
    | zero =>
      simp only [takeBytes] at h
      injection h with h
      cases h
      simp [byteLen]
    | succ m => exact Option.noConfusion h
  | cons c rest ih =>
    intro pre h
    cases n with
    | zero =>
      simp only [takeBytes] at h
      injection h with h
      cases h
      simp [byteLen]
    | succ m =>
      simp only [takeBytes] at h
      by_cases hc : charUtf8Size c ≤ m + 1
      · rw [if_pos hc] at h
        cases htb : takeBytes (m + 1 - charUtf8Size c) rest with
        | none =>
          rw [htb] at h
          exact Option.noConfusion h
        | some pre2 =>
          rw [htb] at h
          simp only [Option.map_some'] at h
          injection h with h
          cases h
          have h1 := ih (m + 1 - charUtf8Size c) pre2 htb
          have h2 : byteLen (c :: pre2) = charUtf8Size c + byteLen pre2 := by
            simp [byteLen]
          omega
      · rw [if_neg hc] at h
        exact Option.noConfusion h

/-- C10 (amended): `truncate_description` returns the input unchanged when
it is at most 240 bytes long; when the input is longer and byte 237 falls on
a character boundary it returns the 237-byte prefix with trailing whitespace
removed followed by `...`; and every returned value is at most 240 bytes.
(When byte 237 falls inside a multi-byte character the Rust code panics,
modelled by the `none` result; see the counterexample.) -/
theorem truncate_description_spec (s : List Char) :
    (byteLen s ≤ 240 → truncate_description s = some s) ∧
    (∀ pre, 240 < byteLen s → takeBytes 237 s = some pre →
      truncate_description s = some (trimEnd pre ++ "...".toList)) ∧
    (∀ r, truncate_description s = some r → byteLen r ≤ 240) := by
  refine ⟨?_, ?_, ?_⟩
  · intro h
    unfold truncate_description
    rw [if_pos h]
  · intro pre hgt htb
    unfold truncate_description
    rw [if_neg (by omega)]
    have h237 : (240 - 3 : Nat) = 237 := rfl
    rw [h237, htb]
  · intro r h
    unfold truncate_description at h
    by_cases hl : byteLen s ≤ 240
    · rw [if_pos hl] at h
      injection h with h
      cases h
      exact hl
    · rw [if_neg hl] at h
      cases htb : takeBytes (240 - 3) s with
      | none =>
        rw [htb] at h
        exact Option.noConfusion h
      | some pre =>
        rw [htb] at h
        injection h with h
        cases h
        have h1 : byteLen pre ≤ 240 - 3 := takeBytes_byteLen (240 - 3) s pre htb
        have h2 := trimEnd_byteLen_le pre
        rw [byteLen_append]
        have h3 : byteLen "...".toList = 3 := by decide
        omega

set_option maxRecDepth 8192 in
/-- Counterexample to C10 as stated: on 121 copies of the two-byte character
`я` (242 bytes), the byte slice `&description[..237]` falls inside a
character, so the Rust code panics instead of returning. -/
theorem truncate_description_counterexample :
    truncate_description (List.replicate 121 'я') = none := by decide

/-- Witness for C10: a short description is returned unchanged. -/
theorem truncate_description_spec_witness :
    truncate_description "short".toList = some "short".toList :=
  (truncate_description_spec "short".toList).1 (by decide)

/-- The fuel argument of `replaceAllAux` is irrelevant once it bounds the
input length. -/
theorem replaceAllAux_fuel (pat repl : List Char) : ∀ (f1 f2 : Nat) (s : List Char),
    s.length ≤ f1 → s.length ≤ f2 →
    replaceAllAux pat repl f1 s = replaceAllAux pat repl f2 s := by
  intro f1
  induction f1 with
  | zero =>
    intro f2 s h1 _
    have hs : s = [] := List.length_eq_zero.mp (Nat.le_zero.mp h1)
    subst hs
    cases f2 with
    | zero => rfl
    | succ f2 => rfl
  | succ f1 ih =>
    intro f2 s h1 h2
    cases s with
    | nil =>
      cases f2 with
      | zero => rfl
      | succ f2 => rfl
    | cons c rest =>
      cases f2 with
      | zero =>
        exfalso
        rw [List.length_cons] at h2
        omega
      | succ f2 =>
        rw [replaceAllAux, replaceAllAux]
        by_cases hcond : pat ≠ [] ∧ pat.isPrefixOf (c :: rest)
        · rw [if_pos hcond, if_pos hcond]
          congr 1
          have hplen : 1 ≤ pat.length := by
            cases hp : pat with
            | nil => exact absurd hp hcond.1
            | cons p0 ptl => simp
          apply ih
          · have hld := List.length_drop pat.length (c :: rest)
            rw [hld]
            simp only [List.length_cons] at h1 ⊢
            omega
          · have hld := List.length_drop pat.length (c :: rest)
            rw [hld]
            simp only [List.length_cons] at h2 ⊢
            omega
        · rw [if_neg hcond, if_neg hcond]
          congr 1
          apply ih
          · rw [List.length_cons] at h1
            omega
          · rw [List.length_cons] at h2
            omega

/-- `replaceAll` passes over a character that cannot start a match. -/
theorem replaceAll_cons_of_head_ne (pat repl : List Char) (c : Char) (s : List Char)
    (hd : Char) (hh : pat.head? = some hd) (hne : hd ≠ c) :
    replaceAll pat repl (c :: s) = c :: replaceAll pat repl s := by
  cases pat with
  | nil => exact Option.noConfusion hh
  | cons p0 ptl =>
    injection hh with hh
    subst hh
    show replaceAllAux (p0 :: ptl) repl (c :: s).length (c :: s)
      = c :: replaceAllAux (p0 :: ptl) repl s.length s
    rw [List.length_cons, replaceAllAux]
    rw [if_neg]
    intro hcond
    have hpre := hcond.2
    simp only [List.isPrefixOf, Bool.and_eq_true, beq_iff_eq] at hpre
    exact hne hpre.1

/-- `replaceAll` passes over a whole block not containing the pattern's
first character. -/
theorem replaceAll_append_left (pat repl s t : List Char)
    (hd : Char) (hh : pat.head? = some hd) (hns : hd ∉ s) :
    replaceAll pat repl (s ++ t) = s ++ replaceAll pat repl t := by
  induction s with
  | nil => rfl
  | cons a s2 ih =>
    have hna : hd ≠ a := fun he => hns (by rw [he]; exact List.mem_cons_self a s2)
    have hns2 : hd ∉ s2 := fun hm => hns (List.mem_cons_of_mem a hm)
    rw [List.cons_append, replaceAll_cons_of_head_ne pat repl a (s2 ++ t) hd hh hna,
      ih hns2, List.cons_append]

/-- `replaceAll` substitutes an occurrence of the pattern sitting at the
head of the input. -/
theorem replaceAll_head_match (pat repl t : List Char) (hp : pat ≠ []) :
    replaceAll pat repl (pat ++ t) = repl ++ replaceAll pat repl t := by
  cases pat with
  | nil => exact absurd rfl hp
  | cons p0 ptl =>
    have hpre : (p0 :: ptl).isPrefixOf ((p0 :: ptl) ++ t) = true :=
      List.isPrefixOf_iff_prefix.mpr ⟨t, rfl⟩
    show replaceAllAux (p0 :: ptl) repl ((p0 :: ptl) ++ t).length ((p0 :: ptl) ++ t)
      = repl ++ replaceAllAux (p0 :: ptl) repl t.length t
    rw [List.cons_append, List.length_cons, replaceAllAux]
    rw [if_pos ⟨hp, by rw [← List.cons_append]; exact hpre⟩]
    congr 1
    rw [← List.cons_append, List.drop_left]
    apply replaceAllAux_fuel
    · simp
    · exact le_refl _

/-- The greedy `[^"]+` capture stops exactly at the closing quote. -/
theorem takeWhile_until_quote (t rest : List Char) (hq : '"' ∉ t) :
    (t ++ '"' :: rest).takeWhile (fun c => c != '"') = t := by
  induction t with
  | nil => simp [List.takeWhile_cons]
  | cons a t2 ih =>
    have hna : a ≠ '"' := fun he => hq (by rw [he]; exact List.mem_cons_self _ _)
    have hq2 : '"' ∉ t2 := fun hm => hq (List.mem_cons_of_mem a hm)
    rw [List.cons_append, List.takeWhile_cons]
    have hb : (a != '"') = true := by
      simp [bne_iff_ne, hna]
    rw [hb]
    simp only [if_true]
    rw [ih hq2]

/-- The anchored regex attempt succeeds on a text of the shape
`filename = "<capture>"...`. -/
theorem matchFilenameAt_shape (t rest : List Char) (ht : t ≠ []) (hq : '"' ∉ t) :
    matchFilenameAt ("filename = \"".toList ++ (t ++ '"' :: rest)) = some t := by
  have hstep : matchFilenameAt ("filename = \"".toList ++ (t ++ '"' :: rest))
      = (if ((t ++ '"' :: rest).takeWhile (fun c => c != '"')).isEmpty then none
         else some ((t ++ '"' :: rest).takeWhile (fun c => c != '"'))) := rfl
  rw [hstep, takeWhile_until_quote t rest hq]
  have hne : t.isEmpty = false := by
    cases t with
    | nil => exact absurd rfl ht
    | cons a t2 => rfl
  rw [hne]
  simp

/-- The leftmost regex match on a text of the shape
`filename = "<capture>"...` is the capture at position zero. -/
theorem findFilenameMatch_shape (t rest : List Char) (ht : t ≠ []) (hq : '"' ∉ t) :
    findFilenameMatch ("filename = \"".toList ++ (t ++ '"' :: rest)) = some t := by
  have hstep : findFilenameMatch ("filename = \"".toList ++ (t ++ '"' :: rest))
      = (match matchFilenameAt ("filename = \"".toList ++ (t ++ '"' :: rest)) with
         | some cap => some cap
         | none =>
           findFilenameMatch ("ilename = \"".toList ++ (t ++ '"' :: rest))) := rfl
  rw [hstep, matchFilenameAt_shape t rest ht hq]

/-- `extract_filename_from_config` on a config of the shape
`filename = "<path>"...` returns the path. -/
theorem extract_filename_shape (t rest : List Char) (ht : t ≠ []) (hq : '"' ∉ t) :
    extract_filename_from_config
        (String.mk ("filename = \"".toList ++ (t ++ '"' :: rest)))
      = .ok (String.mk t) := by
  unfold extract_filename_from_config
  have hl : (String.mk ("filename = \"".toList ++ (t ++ '"' :: rest))).toList
      = "filename = \"".toList ++ (t ++ '"' :: rest) := rfl
  rw [hl, findFilenameMatch_shape t rest ht hq]

/-- A placeholder replacement leaves the `filename = "<target>"` head of the
rendered text intact when the target contains no brace. -/
theorem replaceAll_skeleton (pat repl t x : List Char)
    (hh : pat.head? = some '{') (hbT : '{' ∉ t) :
    replaceAll pat repl ("filename = \"".toList ++ (t ++ '"' :: x))
      = "filename = \"".toList ++ (t ++ '"' :: replaceAll pat repl x) := by
  rw [replaceAll_append_left pat repl "filename = \"".toList _ '{' hh (by decide)]
  rw [replaceAll_append_left pat repl t _ '{' hh hbT]
  rw [replaceAll_cons_of_head_ne pat repl '"' x '{' hh (by decide)]

/-- The rendered configuration text starts with `filename = "<target>"`
whenever the target path contains neither a quote nor a brace. -/
theorem renderConfig_decomp (device target : String)
    (hbT : '{' ∉ target.toList) :
    ∃ rest, (renderConfig device target).toList
      = "filename = \"".toList ++ (target.toList ++ '"' :: rest) := by
  have htempl : CONFIG_TEMPLATE.toList
      = "filename = \"".toList ++ ("{IRFILETEMPLATE}".toList
          ++ ('"' :: ("\nnode.description = \"{DEVICENAMETEMPLATE}\"\nnode.name = \"effect_input.{VIRTUALNODENAME}\"\n").toList)) := rfl
  unfold renderConfig
  rw [htempl]
  rw [replaceAll_append_left "{IRFILETEMPLATE}".toList target.toList
    "filename = \"".toList _ '{' rfl (by decide)]
  rw [replaceAll_head_match "{IRFILETEMPLATE}".toList target.toList _ (by decide)]
  rw [replaceAll_cons_of_head_ne "{IRFILETEMPLATE}".toList target.toList '"' _ '{' rfl
    (by decide)]
  rw [← List.append_assoc]
  rw [List.append_assoc "filename = \"".toList target.toList]
  rw [replaceAll_skeleton "{DEVICENAMETEMPLATE}".toList device.toList target.toList _
    rfl hbT]
  rw [replaceAll_skeleton "{VIRTUALNODENAME}".toList VIRTUAL_NODE_SUFFIX.toList
    target.toList _ rfl hbT]
  exact ⟨_, rfl⟩

/-- `pathJoin` with a non-empty right component yields a non-empty path. -/
theorem pathJoin_ne_nil (dir name : String) (hn : name.toList ≠ []) :
    (pathJoin dir name).toList ≠ [] := by
  unfold pathJoin
  split
  · exact hn
  · split
    · intro h
      have h2 : dir.data ++ name.data = [] := h
      rcases List.append_eq_nil.mp h2 with ⟨_, h4⟩
      exact hn h4
    · intro h
      have h2 : (dir.data ++ ['/']) ++ name.data = [] := h
      rcases List.append_eq_nil.mp h2 with ⟨h3, _⟩
      rcases List.append_eq_nil.mp h3 with ⟨_, h5⟩
      exact List.noConfusion h5

/-- `file_name` never returns the empty string. -/
theorem file_name_ne_empty (p fname : String) (h : file_name p = some fname) :
    fname.toList ≠ [] := by
  unfold file_name at h
  cases hg : (((splitOnChar '/' p.toList).map String.mk).filter
      (fun s => s ≠ "" && s ≠ ".")).getLast? with
  | none =>
    rw [hg] at h
    exact Option.noConfusion h
  | some l =>
    rw [hg] at h
    have h2 : (if l = ".." then none else some l) = some fname := h
    by_cases hdd : l = ".."
    · rw [if_pos hdd] at h2
      exact Option.noConfusion h2
    · rw [if_neg hdd] at h2
      injection h2 with h2
      subst h2
      have hm := List.mem_of_getLast?_eq_some hg
      have hcond := (List.mem_filter.mp hm).2
      simp only [Bool.and_eq_true, decide_eq_true_eq] at hcond
      intro hnil
      apply hcond.1
      cases l with
      | mk dchars =>
        have hd : dchars = [] := hnil
        subst hd
        rfl

/-- A readable file with a valid WAV header gets its content hash from the
`config_exists` checksum computation. -/
theorem config_checksum_of_valid (xxh3 : List Byte → Nat) (data : List Byte)
    (h : wavDamaged (some data) = false) :
    config_checksum xxh3 (some data) = xxh3 data := by
  by_cases h1 : data.length < 28
  · exfalso
    have hw : wavDamaged (some data) = true := by
      simp only [wavDamaged]
      rw [if_pos h1]
    rw [hw] at h
    exact Bool.noConfusion h
  · by_cases h2 : data.take 4 ≠ riffMagic ∨ (data.drop 8).take 4 ≠ waveMagic
    · exfalso
      have hw : wavDamaged (some data) = true := by
        simp only [wavDamaged]
        rw [if_neg h1, if_pos h2]
      rw [hw] at h
      exact Bool.noConfusion h
    · simp only [config_checksum]
      rw [if_pos]
      push_neg at h2
      exact ⟨by omega, h2.1, h2.2⟩

/-- A readable file with a valid WAV header gets its content hash from
classify's checksum component. -/
theorem classify_snd_of_valid (xxh3 : List Byte → Nat) (data : List Byte)
    (h : wavDamaged (some data) = false) :
    (detect_sample_rate_and_checksum xxh3 (some data)).2 = xxh3 data := by
  by_cases h1 : data.length < 28
  · exfalso
    have hw : wavDamaged (some data) = true := by
      simp only [wavDamaged]
      rw [if_pos h1]
    rw [hw] at h
    exact Bool.noConfusion h
  · by_cases h2 : data.take 4 ≠ riffMagic ∨ (data.drop 8).take 4 ≠ waveMagic
    · exfalso
      have hw : wavDamaged (some data) = true := by
        simp only [wavDamaged]
        rw [if_neg h1, if_pos h2]
      rw [hw] at h
      exact Bool.noConfusion h
    · simp only [detect_sample_rate_and_checksum]
      rw [if_neg h1, if_neg h2]

set_option maxRecDepth 8192 in
/-- C4 (amended): the config round trip.  For a record whose file is
readable and a valid WAV, with every external step succeeding, and whose
staged path contains no double quote and no opening brace (template-safe),
`write_config` succeeds and an immediately following `config_exists` returns
`Installed(checksum)` with the checksum component of classify on the
record's file. -/
theorem install_roundtrip (xxh3 : List Byte → Nat) (env : CfgEnv)
    (cm : ConfigManager) (fs : CfgFS) (w d fname : String) (data : List Byte)
    (hp : parentDir cm.config_path = some d)
    (hf : file_name w = some fname)
    (hnp : (pathJoin d "hrir" ++ "/").toList.isPrefixOf w.toList = false)
    (hsrc : fs.files w = some data)
    (hvalid : wavDamaged (some data) = false)
    (hHrir : env.create_hrir_ok = true)
    (hCopy : env.copy_ok = true)
    (hParent : env.create_parent_ok = true)
    (hWrite : env.write_ok = true)
    (hApply : apply_config env cm = true)
    (hq : '"' ∉ (pathJoin (pathJoin d "hrir") fname).toList)
    (hb : '{' ∉ (pathJoin (pathJoin d "hrir") fname).toList) :
    (write_config env cm fs w).2 = .ok () ∧
    config_exists cm xxh3 (write_config env cm fs w).1
      = .ok (some ((detect_sample_rate_and_checksum xxh3 (fs.files w)).2)) := by
  have hnp' : ¬ ((pathJoin d "hrir").data ++ ['/'] <+: w.data) := by
    intro hpre
    have hbp : (pathJoin d "hrir" ++ "/").toList.isPrefixOf w.toList = true :=
      List.isPrefixOf_iff_prefix.mpr hpre
    rw [hnp] at hbp
    exact Bool.noConfusion hbp
  have h2ok : (write_config env cm fs w).2 = .ok () := by
    simp [write_config, hp, hf, hnp', hsrc, hHrir, hCopy, hParent, hWrite, hApply]
  have hcfg : (write_config env cm fs w).1.config
      = some (renderConfig cm.settings.virtual_device_name
          (pathJoin (pathJoin d "hrir") fname)) := by
    simp [write_config, hp, hf, hnp', hsrc, hHrir, hCopy, hParent, hWrite, hApply]
  have hfiles : (write_config env cm fs w).1.files
      (pathJoin (pathJoin d "hrir") fname) = some data := by
    simp [write_config, hp, hf, hnp', hsrc, hHrir, hCopy, hParent, hWrite, hApply]
  have htne : (pathJoin (pathJoin d "hrir") fname).toList ≠ [] :=
    pathJoin_ne_nil _ _ (file_name_ne_empty w fname hf)
  obtain ⟨rest, hrl⟩ :=
    renderConfig_decomp cm.settings.virtual_device_name
      (pathJoin (pathJoin d "hrir") fname) hb
  have hextract : extract_filename_from_config
      (renderConfig cm.settings.virtual_device_name
        (pathJoin (pathJoin d "hrir") fname))
      = .ok (String.mk (pathJoin (pathJoin d "hrir") fname).toList) := by
    unfold extract_filename_from_config
    rw [hrl, findFilenameMatch_shape _ rest htne hq]
  have heta : String.mk (pathJoin (pathJoin d "hrir") fname).toList
      = pathJoin (pathJoin d "hrir") fname := rfl
  rw [heta] at hextract
  refine ⟨h2ok, ?_⟩
  unfold config_exists
  rw [hcfg]
  show (match extract_filename_from_config
        (renderConfig cm.settings.virtual_device_name
          (pathJoin (pathJoin d "hrir") fname)) with
    | Except.error e => Except.error ("Failed to parse config: " ++ e)
    | Except.ok file_path =>
      Except.ok (some (config_checksum xxh3 ((write_config env cm fs w).1.files file_path))))
      = Except.ok (some ((detect_sample_rate_and_checksum xxh3 (fs.files w)).2))
  rw [hextract]
  show Except.ok (some (config_checksum xxh3
        ((write_config env cm fs w).1.files (pathJoin (pathJoin d "hrir") fname))))
      = Except.ok (some ((detect_sample_rate_and_checksum xxh3 (fs.files w)).2))
  rw [hfiles, hsrc, config_checksum_of_valid xxh3 data hvalid,
    classify_snd_of_valid xxh3 data hvalid]

set_option maxRecDepth 32768 in
/-- Counterexample to C4 as stated: for the readable, valid WAV record at
`/wavs/a"b.wav` (a filename containing a double quote) every step of
`write_config` succeeds, yet the immediately following `config_exists`
returns `Installed(0)`: the first-match `filename = "..."` parse truncates
the staged path at the embedded quote, the truncated path is unreadable, and
the reported checksum 0 differs from classify's checksum (here 1, under the
hash `fun _ => 1`). -/
theorem install_roundtrip_counterexample :
    (write_config exEnvAllOk exCM exFSquote "/wavs/a\"b.wav").2 = .ok () ∧
    wavDamaged (exFSquote.files "/wavs/a\"b.wav") = false ∧
    (detect_sample_rate_and_checksum (fun _ => 1)
      (exFSquote.files "/wavs/a\"b.wav")).2 = 1 ∧
    config_exists exCM (fun _ => 1)
        (write_config exEnvAllOk exCM exFSquote "/wavs/a\"b.wav").1
      = .ok (some 0) := by
  refine ⟨rfl, by decide, by decide, rfl⟩

set_option maxRecDepth 32768 in
/-- Witness for C4: the round trip at a concrete quote-free record. -/
theorem install_roundtrip_witness :
    (write_config exEnvAllOk exCM exFS "/wavs/ir.wav").2 = .ok () ∧
    config_exists exCM (fun _ => 1)
        (write_config exEnvAllOk exCM exFS "/wavs/ir.wav").1
      = .ok (some ((detect_sample_rate_and_checksum (fun _ => 1)
          (exFS.files "/wavs/ir.wav")).2)) :=
  install_roundtrip (fun _ => 1) exEnvAllOk exCM exFS "/wavs/ir.wav"
    "/home/user/.config/pipewire/pipewire.conf.d" "ir.wav" sampleWav
    (by decide) (by decide) (by decide) (by decide) (by decide)
    rfl rfl rfl rfl rfl (by decide) (by decide)
